/-
Verification of the universal_api_client repository (src/universal_client.py).

The file gives a shallow embedding of the program: Python dicts become
insertion-ordered association lists, the HTTP transport and the OAuth token
endpoint become explicit response functions (indexed by attempt number, so a
stateful server can be modelled), raised exceptions become an explicit error
type, and the three pagination loops become fuel-indexed recursions (the fuel
only guards Lean totality; the theorems show the loops stop well inside it).
Machine state that the Python code mutates (the token cache, the params dict)
is threaded explicitly.
-/
import Mathlib

/-- A value stored in a Python dict of request parameters.  The claims only
exercise numeric pagination parameters and string-valued caller parameters. -/
inductive PVal where
  | nat (n : Nat)
  | str (s : String)
deriving DecidableEq

/-- A Python dict with string keys, as an insertion-ordered association list
(Python dicts preserve insertion order). -/
abbrev PyDict := List (String × PVal)

/-- Embeds `d.get(k)`: the value bound to `k`, if any.  Keys in a Python dict
are unique; on lists produced by `dictSet` the first binding is the binding. -/
def dictGet {σ : Type} : List (String × σ) → String → Option σ
  | [], _ => none
  | p :: rest, k => if p.1 = k then some p.2 else dictGet rest k

/-- Embeds `d[k] = v`: replaces the value at an existing key in place (Python
keeps the original insertion position) or appends a new binding at the end. -/
def dictSet {σ : Type} : List (String × σ) → String → σ → List (String × σ)
  | [], k, v => [(k, v)]
  | p :: rest, k, v => if p.1 = k then (k, v) :: rest else p :: dictSet rest k v

/-- Embeds `d.update(u)`: applies every binding of `u` to `d` in order, later
bindings overwriting earlier ones. -/
def dictUpdate {σ : Type} (d u : List (String × σ)) : List (String × σ) :=
  u.foldl (fun acc p => dictSet acc p.1 p.2) d

/-- The last value bound to `k` in the list `u` (the binding that wins when
`u` is applied by `dictUpdate`). -/
def lastVal {σ : Type} : List (String × σ) → String → Option σ
  | [], _ => none
  | p :: rest, k =>
    match lastVal rest k with
    | some v => some v
    | none => if p.1 = k then some p.2 else none

/-- Embeds `d.get(k, default)` for a numeric parameter such as the limit or the
per-page count.  The pagination code does arithmetic on the value, so the
claims only exercise numeric values; a non-numeric value (on which Python would
fail with a TypeError during the arithmetic) is outside the model. -/
def getNatD (d : PyDict) (k : String) (dflt : Nat) : Nat :=
  match dictGet d k with
  | some (PVal.nat n) => n
  | _ => dflt

/-- The exceptions the program can raise.  `valueError` embeds Python's
ValueError (what the spec calls ConfigurationError), `keyError` a failed
required dict lookup such as `token_data["access_token"]`, and `httpError s`
the exception of `response.raise_for_status()` for a response with status `s`
(what the spec calls HttpError, and AuthenticationError when it comes from the
token endpoint). -/
inductive Err where
  | valueError (msg : String)
  | keyError (k : String)
  | httpError (status : Nat)
deriving DecidableEq

/- ===============================
   URL construction (lines 108-110 and 133-134)
   =============================== -/

/-- Embeds Python's `s.rstrip("/")`: removes every trailing slash. -/
def rstripSlash (s : String) : String :=
  ⟨((s.data.reverse.dropWhile (fun c => c == '/'))).reverse⟩

/-- Embeds Python's `s.lstrip("/")`: removes every leading slash. -/
def lstripSlash (s : String) : String :=
  ⟨s.data.dropWhile (fun c => c == '/')⟩

/-- The URL built for a request: `__init__` strips the trailing slashes of
`base_url`, and `_make_request` interpolates `f"{base_url}/{endpoint.lstrip('/')}"`. -/
def build_url (base_url endpoint : String) : String :=
  rstripSlash base_url ++ "/" ++ lstripSlash endpoint

/- ===============================
   API key authentication (lines 30-56)
   =============================== -/

/-- The ephemeral auth bundle a strategy returns: headers and query params to
merge into the outgoing request. -/
structure AuthData where
  headers : List (String × String)
  params : PyDict
deriving DecidableEq

/-- The fields of an `APIKeyAuth` instance (constructor lines 31-40). -/
structure APIKeyAuth where
  api_key : String
  location : String
  name : String
  extra_headers : List (String × String)
deriving DecidableEq

/-- Embeds `APIKeyAuth.get_auth_data` (lines 43-56): header placement builds
`{name: key}` and then applies `extra_headers` on top of it; query placement
returns `extra_headers` as the headers and `{name: key}` as the params; any
other location raises `ValueError("Invalid API key location")`. -/
def APIKeyAuth.get_auth_data (a : APIKeyAuth) : Except Err AuthData :=
  if a.location = "header" then
    Except.ok ⟨dictUpdate [(a.name, a.api_key)] a.extra_headers, []⟩
  else if a.location = "query" then
    Except.ok ⟨a.extra_headers, [(a.name, PVal.str a.api_key)]⟩
  else
    Except.error (Err.valueError "Invalid API key location")

/- ===============================
   Client credentials authentication (lines 62-101)
   =============================== -/

/-- A response of the OAuth token endpoint, as `_authenticate` reads it: the
HTTP status, the optional `access_token` JSON field and the optional
`expires_in` JSON field.  The endpoint is modelled as a function from the
fetch number to a response, so a stateful server (different token per fetch)
is expressible. -/
structure TokenResp where
  status : Nat
  access_token : Option String
  expires_in : Option Nat
deriving DecidableEq

/-- The fields of a `ClientCredentialsAuth` instance (constructor lines
63-68): credentials plus the mutable token cache, initialized empty/zero. -/
structure ClientCredentialsAuth where
  token_url : String
  client_id : String
  client_secret : String
  access_token : Option String
  expiry_time : Nat
deriving DecidableEq

/-- Python truthiness of the cached token: `not self.access_token` is true
when the token is `None` or the empty string. -/
def tokenTruthy : Option String → Bool
  | none => false
  | some s => !(s == "")

/-- Whether `response.raise_for_status()` raises: true exactly for the 4xx and
5xx status codes. -/
def failStatus (s : Nat) : Bool :=
  decide (400 ≤ s) && decide (s < 600)

/-- Python's `f"Bearer {self.access_token}"` renders `None` as the string
`"None"`. -/
def pyStrOpt : Option String → String
  | none => "None"
  | some s => s

/-- The auth bundle `ClientCredentialsAuth.get_auth_data` returns (lines
98-101): a bearer Authorization header and no query params. -/
def bearerAuthData (t : Option String) : AuthData :=
  ⟨[("Authorization", "Bearer " ++ pyStrOpt t)], []⟩

/-- Embeds `ClientCredentialsAuth._authenticate` (lines 70-87): reads the
token endpoint response number `i`, raises for a failure status, raises a
KeyError when `access_token` is absent, and otherwise caches the token with
expiry `now + expires_in` (default 3600).  Returns the instance state at the
point of return or raise, plus the raised error if any. -/
def ClientCredentialsAuth.authenticate (s : ClientCredentialsAuth)
    (srv : Nat → TokenResp) (i now : Nat) : ClientCredentialsAuth × Option Err :=
  let r := srv i
  if failStatus r.status then (s, some (Err.httpError r.status))
  else
    match r.access_token with
    | none => (s, some (Err.keyError "access_token"))
    | some tok =>
      ({ s with access_token := some tok, expiry_time := now + r.expires_in.getD 3600 }, none)

/-- Embeds `ClientCredentialsAuth.force_refresh` (lines 89-92): clears the
cached token and expiry, then authenticates unconditionally. -/
def ClientCredentialsAuth.force_refresh (s : ClientCredentialsAuth)
    (srv : Nat → TokenResp) (i now : Nat) : ClientCredentialsAuth × Option Err :=
  ClientCredentialsAuth.authenticate { s with access_token := none, expiry_time := 0 } srv i now

/-- Embeds `ClientCredentialsAuth.get_auth_data` (lines 94-101): authenticates
when the cached token is falsy or the current time has reached the expiry,
then returns the bearer header bundle.  `i` is the number of token fetches
performed so far; the returned `Nat` is that count after the call, so the
difference counts the fetches this call triggered. -/
def ClientCredentialsAuth.get_auth_data (s : ClientCredentialsAuth)
    (srv : Nat → TokenResp) (i now : Nat) :
    ClientCredentialsAuth × Nat × Except Err AuthData :=
  if !tokenTruthy s.access_token || decide (s.expiry_time ≤ now) then
    match s.authenticate srv i now with
    | (s1, some e) => (s1, i + 1, Except.error e)
    | (s1, none) => (s1, i + 1, Except.ok (bearerAuthData s1.access_token))
  else
    (s, i, Except.ok (bearerAuthData s.access_token))

/- ===============================
   Request executor (lines 133-176)
   =============================== -/

/-- An HTTP response of the target API, as the retry logic reads it. -/
structure HttpResp where
  status : Nat
deriving DecidableEq

/-- The data of one call to `requests.request` issued by `_make_request`:
method, URL, headers, merged query params, and the remaining keyword
arguments (such as a JSON body), passed through unmodified as an arbitrary
value of type `β`. -/
structure ReqData (β : Type) where
  method : String
  url : String
  headers : List (String × String)
  params : PyDict
  kwargs : β
deriving DecidableEq

/-- Embeds `response.raise_for_status()` as used at line 175: raises an
`HTTPError` carrying the status for a 4xx/5xx response, otherwise returns the
response. -/
def raise_for_status (r : HttpResp) : Except Err HttpResp :=
  if failStatus r.status then Except.error (Err.httpError r.status) else Except.ok r

/-- Embeds `_make_request` (lines 133-176) for a client whose auth strategy is
a `ClientCredentialsAuth` (so `isinstance(self.auth, ClientCredentialsAuth)`
is true).  The transport is a function from the attempt number (0 for the
first request, 1 for the retried one) and the request data to a response.
Returns the auth state, the token fetch count, the list of transport requests
actually issued, and the result. -/
def make_request_cc {β : Type} (s : ClientCredentialsAuth) (srv : Nat → TokenResp)
    (transport : Nat → ReqData β → HttpResp) (now : Nat)
    (base_url endpoint method : String) (params : Option PyDict) (kwargs : β) (i : Nat) :
    ClientCredentialsAuth × Nat × List (ReqData β) × Except Err HttpResp :=
  let url := build_url base_url endpoint
  match s.get_auth_data srv i now with
  | (s1, i1, Except.error e) => (s1, i1, [], Except.error e)
  | (s1, i1, Except.ok ad) =>
    let final_params := dictUpdate (params.getD []) ad.params
    let req1 : ReqData β := ⟨method, url, ad.headers, final_params, kwargs⟩
    let resp1 := transport 0 req1
    if resp1.status = 401 then
      match s1.force_refresh srv i1 now with
      | (s2, some e) => (s2, i1 + 1, [req1], Except.error e)
      | (s2, none) =>
        match s2.get_auth_data srv (i1 + 1) now with
        | (s3, i3, Except.error e) => (s3, i3, [req1], Except.error e)
        | (s3, i3, Except.ok ad2) =>
          let req2 : ReqData β := ⟨method, url, ad2.headers, final_params, kwargs⟩
          (s3, i3, [req1, req2], raise_for_status (transport 1 req2))
    else
      (s1, i1, [req1], raise_for_status resp1)

/-- Embeds `_make_request` for a client whose auth strategy is an
`APIKeyAuth`: the 401 retry branch is unreachable because
`isinstance(self.auth, ClientCredentialsAuth)` is false, so exactly one
transport request is issued whatever its status. -/
def make_request_api_key {β : Type} (a : APIKeyAuth)
    (transport : Nat → ReqData β → HttpResp)
    (base_url endpoint method : String) (params : Option PyDict) (kwargs : β) :
    List (ReqData β) × Except Err HttpResp :=
  let url := build_url base_url endpoint
  match a.get_auth_data with
  | Except.error e => ([], Except.error e)
  | Except.ok ad =>
    let final_params := dictUpdate (params.getD []) ad.params
    let req1 : ReqData β := ⟨method, url, ad.headers, final_params, kwargs⟩
    ([req1], raise_for_status (transport 0 req1))

/- ===============================
   Pagination engine (lines 194-263)
   =============================== -/

/-- A page response as `get_all` reads it: the items under the fixed key
`"orders"` (default `[]`), and the pagination metadata fields
`total_count`, `total_pages` and the has-more flag, each optional because the
code reads them with `.get(..., default)`.  Items have an abstract type `α`. -/
structure PageResp (α : Type) where
  orders : List α
  total_count : Option Nat
  total_pages : Option Nat
  has_more : Option Bool
deriving DecidableEq

/-- The `PaginationStrategy.OFFSET` tag (line 8). -/
def PaginationStrategy.OFFSET : String := "offset"

/-- The `PaginationStrategy.PAGE` tag (line 9). -/
def PaginationStrategy.PAGE : String := "page"

/-- The `PaginationStrategy.HAS_MORE` tag (line 10). -/
def PaginationStrategy.HAS_MORE : String := "has_more"

/-- The OFFSET branch of `get_all` (lines 202-226).  `fetch i d` is the
result of `self.get(endpoint, params=d)` for the `i`-th request of this call
(so a stateful server is expressible); an `Except.error` is an exception
propagating out of `get`.  The loop body sets `params[offset_field] = offset`,
fetches, appends the items, captures `total_count` while it is still unknown,
advances the offset by the limit, and breaks when one of the three sequential
break checks fires (their sequence is collapsed into one disjunction, which
has the same break behaviour): `offset >= 25`, known total reached, or empty
page.  The fuel argument only bounds the recursion for Lean; `none` means the
fuel ran out before the loop broke.  Returns the list of param dicts sent and
the accumulated items (or the propagated error). -/
def offsetLoopAux {α : Type} (fetch : Nat → PyDict → Except Err (PageResp α))
    (offset_field : String) (limit : Nat) :
    Nat → Nat → PyDict → Nat → Option Nat → List α → List PyDict →
    Option (List PyDict × Except Err (List α))
  | 0, _, _, _, _, _, _ => none
  | fuel + 1, i, params, offset, tc, acc, trace =>
    let params1 := dictSet params offset_field (PVal.nat offset)
    match fetch i params1 with
    | Except.error e => some (trace ++ [params1], Except.error e)
    | Except.ok resp =>
      let acc1 := acc ++ resp.orders
      let tc1 := match tc with
        | some t => some t
        | none => resp.total_count
      let offset1 := offset + limit
      let trace1 := trace ++ [params1]
      let stop1 := decide (25 ≤ offset1) ||
        (match tc1 with | some t => decide (t ≤ offset1) | none => false) ||
        resp.orders.isEmpty
      if stop1 then some (trace1, Except.ok acc1)
      else offsetLoopAux fetch offset_field limit fuel (i + 1) params1 offset1 tc1 acc1 trace1

/-- The PAGE branch of `get_all` (lines 228-247): sets `params[page_field] =
page` starting at 1, fetches, appends the items, and breaks when `page > 3`,
or `total_pages` is present and `page >= total_pages`, or `total_pages` is
absent and the page is empty; otherwise increments the page. -/
def pageLoopAux {α : Type} (fetch : Nat → PyDict → Except Err (PageResp α))
    (page_field : String) :
    Nat → Nat → PyDict → Nat → List α → List PyDict →
    Option (List PyDict × Except Err (List α))
  | 0, _, _, _, _, _ => none
  | fuel + 1, i, params, page, acc, trace =>
    let params1 := dictSet params page_field (PVal.nat page)
    match fetch i params1 with
    | Except.error e => some (trace ++ [params1], Except.error e)
    | Except.ok resp =>
      let acc1 := acc ++ resp.orders
      let trace1 := trace ++ [params1]
      let stop1 := decide (3 < page) ||
        (match resp.total_pages with
         | some tp => decide (tp ≤ page)
         | none => resp.orders.isEmpty)
      if stop1 then some (trace1, Except.ok acc1)
      else pageLoopAux fetch page_field fuel (i + 1) params1 (page + 1) acc1 trace1

/-- The HAS_MORE branch of `get_all` (lines 249-262): fetches with the same
unmodified params while the flag is true, appends the items, reads the
has-more field (default false) into the flag, and also breaks once three
iterations have run. -/
def hasMoreLoopAux {α : Type} (fetch : Nat → PyDict → Except Err (PageResp α)) :
    Nat → Nat → PyDict → Bool → Nat → List α → List PyDict →
    Option (List PyDict × Except Err (List α))
  | 0, _, _, _, _, _, _ => none
  | fuel + 1, i, params, has_more, iteration, acc, trace =>
    if has_more = false then some (trace, Except.ok acc)
    else
      match fetch i params with
      | Except.error e => some (trace ++ [params], Except.error e)
      | Except.ok resp =>
        let iteration1 := iteration + 1
        let acc1 := acc ++ resp.orders
        let hm1 := resp.has_more.getD false
        let trace1 := trace ++ [params]
        if 3 ≤ iteration1 then some (trace1, Except.ok acc1)
        else hasMoreLoopAux fetch fuel (i + 1) params hm1 iteration1 acc1 trace1

/-- Embeds `get_all` (lines 194-263): copies the caller params (the copy has
the same value; the aliasing aspect is modelled separately by
`get_all_heap`), dispatches on the strategy tag, and for an unknown tag falls
through to `return results` with the empty accumulator.  The OFFSET limit is
`params.get(limit_field, 50)`.  Returns the list of param dicts sent with the
requests and the accumulated items or the propagated error. -/
def get_all {α : Type} (fetch : Nat → PyDict → Except Err (PageResp α))
    (params0 : Option PyDict) (strategy : String)
    (limit_field offset_field page_field per_page_field has_more_field : String)
    (fuel : Nat) : Option (List PyDict × Except Err (List α)) :=
  let params := params0.getD []
  if strategy = PaginationStrategy.OFFSET then
    offsetLoopAux fetch offset_field (getNatD params limit_field 50) fuel 0 params 0 none [] []
  else if strategy = PaginationStrategy.PAGE then
    pageLoopAux fetch page_field fuel 0 params 1 [] []
  else if strategy = PaginationStrategy.HAS_MORE then
    hasMoreLoopAux fetch fuel 0 params true 0 [] []
  else
    some ([], Except.ok [])

/- ===============================
   Vocabulary for the OFFSET termination claim (C6)
   =============================== -/

/-- The `total_count` the OFFSET loop has captured after `n` fetches against
the page sequence `pages`: the value of the earliest response that carries
one. -/
def tcFirst {α : Type} (pages : Nat → PageResp α) : Nat → Option Nat
  | 0 => none
  | n + 1 =>
    match tcFirst pages n with
    | some t => some t
    | none => (pages n).total_count

/-- Whether the OFFSET loop's stop condition holds after the `n`-th fetch
(`n ≥ 1`), once the offset has advanced to `n * limit`: the offset reached
the hard ceiling of 25, or the captured total is known and reached, or the
`n`-th page was empty. -/
def stopAt {α : Type} (pages : Nat → PageResp α) (limit n : Nat) : Bool :=
  decide (25 ≤ n * limit) ||
  (match tcFirst pages n with | some t => decide (t ≤ n * limit) | none => false) ||
  (pages (n - 1)).orders.isEmpty

/-- The least `n > k` with `stop n`, searched up to `k + fuel`. -/
def firstStopFrom (stop : Nat → Bool) : Nat → Nat → Option Nat
  | 0, _ => none
  | fuel + 1, k => if stop (k + 1) then some (k + 1) else firstStopFrom stop fuel (k + 1)

/-- The concatenation, in fetch order, of the items of pages `k` to `n - 1`. -/
def pagesSeg {α : Type} (pages : Nat → PageResp α) (k n : Nat) : List α :=
  ((List.range' k (n - k)).map fun j => (pages j).orders).flatten

/-- The param dicts of fetches `k` to `n - 1` of the OFFSET loop: the base
params with the offset field set to `j * limit` for each `j`. -/
def dictsSeg (params : PyDict) (offset_field : String) (limit k n : Nat) : List PyDict :=
  (List.range' k (n - k)).map fun j => dictSet params offset_field (PVal.nat (j * limit))

/-- Modelled from the claim C6's own words, for comparison with the code: a
loop whose `total_count` comes from the FIRST response only, and whose
ceiling check stops only when the offset strictly exceeds 25.  The code
differs on both points. -/
def offsetClaimLoop {α : Type} (pages : Nat → PageResp α) (limit : Nat) :
    Nat → Nat → List α
  | 0, _ => []
  | fuel + 1, k =>
    let resp := pages k
    let stop1 := decide (25 < (k + 1) * limit) ||
      (match (pages 0).total_count with
       | some t => decide (t ≤ (k + 1) * limit)
       | none => false) ||
      resp.orders.isEmpty
    resp.orders ++ (if stop1 then [] else offsetClaimLoop pages limit fuel (k + 1))

/-- The items the claim-as-written loop returns, starting at the first fetch. -/
def offsetClaimRun {α : Type} (pages : Nat → PageResp α) (limit fuel : Nat) : List α :=
  offsetClaimLoop pages limit fuel 0

/-- The mock list endpoint of the OFFSET acceptance scenario: keyed by the
`offset` query parameter it serves pages of 10, 10 and 5 items (the numbers
0..24 in order) and an empty page everywhere else. -/
def mockOffsetPages : Nat → PyDict → Except Err (PageResp Nat) := fun _ d =>
  Except.ok (match dictGet d "offset" with
    | some (PVal.nat 0) => ⟨List.range 10, none, none, none⟩
    | some (PVal.nat 10) => ⟨(List.range 10).map fun j => 10 + j, none, none, none⟩
    | some (PVal.nat 20) => ⟨(List.range 5).map fun j => 20 + j, none, none, none⟩
    | _ => ⟨[], none, none, none⟩)

/-- The page sequence of the C6 counterexample: the first response carries no
`total_count`, the second response carries `total_count = 2`, every page is
nonempty. -/
def twoPageTotal : Nat → PageResp Nat := fun k =>
  if k = 0 then ⟨[1], none, none, none⟩
  else if k = 1 then ⟨[2], some 2, none, none⟩
  else ⟨[k + 100], none, none, none⟩

/-- The page sequence of the C6 witness: one page of one item, then empty
pages. -/
def oneThenEmpty : Nat → PageResp Nat := fun i =>
  if i = 0 then ⟨[7], none, none, none⟩ else ⟨[], none, none, none⟩

/- ===============================
   Store-level embedding of get_all, for the aliasing claim (C10)
   =============================== -/

/-- A store of Python dict objects: a cell per dict, addressed by index.  The
caller's params dict and the copy `get_all` makes live in different cells, so
mutation through one name is visible as an update of one cell only. -/
abbrev PyHeap := List PyDict

/-- Reads the dict object in cell `r`. -/
def heapGet (h : PyHeap) (r : Nat) : PyDict := h.getD r []

/-- Overwrites the dict object in cell `r` (a `params[k] = v` statement
updates the owning cell in place). -/
def heapSet (h : PyHeap) (r : Nat) (d : PyDict) : PyHeap := h.set r d

/-- The OFFSET branch of `get_all`, store-level: identical control flow to
`offsetLoopAux`, but the dict mutation `params[offset_field] = offset` is an
in-place update of the local copy's cell `r`. -/
def offsetHeapLoop {α : Type} (fetch : Nat → PyDict → Except Err (PageResp α))
    (offset_field : String) (limit : Nat) :
    Nat → Nat → PyHeap → Nat → Nat → Option Nat → List α →
    PyHeap × Option (Except Err (List α))
  | 0, _, h, _, _, _, _ => (h, none)
  | fuel + 1, i, h, r, offset, tc, acc =>
    let h1 := heapSet h r (dictSet (heapGet h r) offset_field (PVal.nat offset))
    match fetch i (heapGet h1 r) with
    | Except.error e => (h1, some (Except.error e))
    | Except.ok resp =>
      let acc1 := acc ++ resp.orders
      let tc1 := match tc with | some t => some t | none => resp.total_count
      let offset1 := offset + limit
      let stop1 := decide (25 ≤ offset1) ||
        (match tc1 with | some t => decide (t ≤ offset1) | none => false) ||
        resp.orders.isEmpty
      if stop1 then (h1, some (Except.ok acc1))
      else offsetHeapLoop fetch offset_field limit fuel (i + 1) h1 r offset1 tc1 acc1

/-- The PAGE branch of `get_all`, store-level: `params[page_field] = page`
updates the local copy's cell in place. -/
def pageHeapLoop {α : Type} (fetch : Nat → PyDict → Except Err (PageResp α))
    (page_field : String) :
    Nat → Nat → PyHeap → Nat → Nat → List α → PyHeap × Option (Except Err (List α))
  | 0, _, h, _, _, _ => (h, none)
  | fuel + 1, i, h, r, page, acc =>
    let h1 := heapSet h r (dictSet (heapGet h r) page_field (PVal.nat page))
    match fetch i (heapGet h1 r) with
    | Except.error e => (h1, some (Except.error e))
    | Except.ok resp =>
      let acc1 := acc ++ resp.orders
      let stop1 := decide (3 < page) ||
        (match resp.total_pages with
         | some tp => decide (tp ≤ page)
         | none => resp.orders.isEmpty)
      if stop1 then (h1, some (Except.ok acc1))
      else pageHeapLoop fetch page_field fuel (i + 1) h1 r (page + 1) acc1

/-- The HAS_MORE branch of `get_all`, store-level: no pagination field is
injected, so the store is never written. -/
def hasMoreHeapLoop {α : Type} (fetch : Nat → PyDict → Except Err (PageResp α)) :
    Nat → Nat → PyHeap → Nat → Bool → Nat → List α →
    PyHeap × Option (Except Err (List α))
  | 0, _, h, _, _, _, _ => (h, none)
  | fuel + 1, i, h, r, has_more, iteration, acc =>
    if has_more = false then (h, some (Except.ok acc))
    else
      match fetch i (heapGet h r) with
      | Except.error e => (h, some (Except.error e))
      | Except.ok resp =>
        let iteration1 := iteration + 1
        let acc1 := acc ++ resp.orders
        let hm1 := resp.has_more.getD false
        if 3 ≤ iteration1 then (h, some (Except.ok acc1))
        else hasMoreHeapLoop fetch fuel (i + 1) h r hm1 iteration1 acc1

/-- Embeds `get_all` at store level.  Line 200, `params = params.copy() if
params else {}`, allocates a NEW cell holding a copy of the caller's dict (or
an empty dict when no params were given or the dict is falsy-empty; the copy
has the same value either way), and every later mutation targets that new
cell. -/
def get_all_heap {α : Type} (fetch : Nat → PyDict → Except Err (PageResp α))
    (h0 : PyHeap) (paramsRef : Option Nat) (strategy : String)
    (limit_field offset_field page_field per_page_field has_more_field : String)
    (fuel : Nat) : PyHeap × Option (Except Err (List α)) :=
  let callerD := match paramsRef with | some r => heapGet h0 r | none => []
  let r := h0.length
  let h1 := h0 ++ [callerD]
  if strategy = PaginationStrategy.OFFSET then
    offsetHeapLoop fetch offset_field (getNatD callerD limit_field 50) fuel 0 h1 r 0 none []
  else if strategy = PaginationStrategy.PAGE then
    pageHeapLoop fetch page_field fuel 0 h1 r 1 []
  else if strategy = PaginationStrategy.HAS_MORE then
    hasMoreHeapLoop fetch fuel 0 h1 r true 0 []
  else (h1, some (Except.ok []))

lemma dropSlash_head (l : List Char) :
    (l.dropWhile (fun c => c == '/')).head? ≠ some '/' := by
  induction l with
  | nil => simp
  | cons a t ih =>
    by_cases h : a == '/'
    · simpa [List.dropWhile_cons, h] using ih
    · simp only [List.dropWhile_cons, h, Bool.false_eq_true, if_false, List.head?_cons]
      intro hc
      rw [Option.some_inj] at hc
      subst hc
      simp at h

lemma rstripSlash_append_slash (b : String) :
    rstripSlash (b ++ "/") = rstripSlash b := by
  obtain ⟨l⟩ := b
  show rstripSlash ⟨l ++ ['/']⟩ = rstripSlash ⟨l⟩
  simp [rstripSlash, List.reverse_append]

lemma lstripSlash_slash_append (e : String) :
    lstripSlash ("/" ++ e) = lstripSlash e := by
  obtain ⟨l⟩ := e
  show lstripSlash ⟨'/' :: l⟩ = lstripSlash ⟨l⟩
  simp [lstripSlash]

/-- C7: the request URL is the base joined to the endpoint with exactly one
separating slash, regardless of a trailing slash on the base or a leading
slash on the endpoint: adding such a slash does not change the URL, the
stripped base never ends in a slash, the stripped endpoint never starts with
one, and the concrete pair from the spec gives exactly `https://x.com/foo`. -/
theorem c7_url_one_separating_slash (b e : String) :
    build_url (b ++ "/") e = build_url b e ∧
    build_url b ("/" ++ e) = build_url b e ∧
    (lstripSlash e).data.head? ≠ some '/' ∧
    (rstripSlash b).data.getLast? ≠ some '/' ∧
    build_url "https://x.com/" "/foo" = "https://x.com/foo" := by
  refine ⟨?_, ?_, ?_, ?_, ?_⟩
  · rw [build_url, build_url, rstripSlash_append_slash]
  · rw [build_url, build_url, lstripSlash_slash_append]
  · exact dropSlash_head _
  · show ((b.data.reverse.dropWhile (fun c => c == '/')).reverse).getLast? ≠ some '/'
    rw [List.getLast?_reverse]
    exact dropSlash_head _
  · decide

/- ===============================
   Dictionary lookup lemmas
   =============================== -/

lemma dictGet_dictSet_self {σ : Type} (d : List (String × σ)) (k : String) (v : σ) :
    dictGet (dictSet d k v) k = some v := by
  induction d with
  | nil => simp [dictGet, dictSet]
  | cons p rest ih =>
    by_cases h : p.1 = k
    · simp [dictSet, dictGet, h]
    · simp [dictSet, dictGet, h, ih]

lemma dictGet_dictSet_ne {σ : Type} (d : List (String × σ)) (k k' : String) (v : σ)
    (h : k ≠ k') : dictGet (dictSet d k v) k' = dictGet d k' := by
  induction d with
  | nil => simp [dictGet, dictSet, h]
  | cons p rest ih =>
    by_cases hp : p.1 = k
    · simp [dictSet, dictGet, hp, h]
    · simp [dictSet, dictGet, hp, ih]

lemma dictGet_dictUpdate {σ : Type} (u d : List (String × σ)) (k : String) :
    dictGet (dictUpdate d u) k =
      match lastVal u k with
      | some v => some v
      | none => dictGet d k := by
  induction u generalizing d with
  | nil => rfl
  | cons p rest ih =>
    show dictGet (dictUpdate (dictSet d p.1 p.2) rest) k = _
    rw [ih]
    cases hl : lastVal rest k with
    | some v => simp [lastVal, hl]
    | none =>
      simp only [lastVal, hl]
      by_cases hp : p.1 = k
      · subst hp
        simp [dictGet_dictSet_self]
      · simp [hp, dictGet_dictSet_ne _ _ _ _ hp]

/- ===============================
   C8: API key placement
   =============================== -/

/-- C8 counterexample: with location `header` and an `extra_headers` entry that
collides with the key's header name, the extra header overwrites the API key
(`headers.update(extra_headers)` wins), so the key is NOT placed in the
headers, contradicting the claim as stated. -/
theorem c8_counterexample :
    APIKeyAuth.get_auth_data ⟨"secret", "header", "x-api-key", [("x-api-key", "zzz")]⟩ =
      Except.ok ⟨[("x-api-key", "zzz")], []⟩ ∧
    ("x-api-key", "secret") ∉ [("x-api-key", "zzz")] := by
  refine ⟨rfl, by decide⟩

/-- C8 (amended): any location other than `header` or `query` fails with the
configuration error at the `get_auth_data` call; for `header` the headers are
`{name: key}` overlaid with `extra_headers` (an extra header with the same
name overrides the key) and the query params are empty; for `query` the
headers are exactly `extra_headers` and the key is placed in the query params
under `name`. -/
theorem c8_api_key_placement (a : APIKeyAuth) :
    (a.location ≠ "header" → a.location ≠ "query" →
      a.get_auth_data = Except.error (Err.valueError "Invalid API key location")) ∧
    (a.location = "header" →
      a.get_auth_data = Except.ok ⟨dictUpdate [(a.name, a.api_key)] a.extra_headers, []⟩ ∧
      ∀ k, dictGet (dictUpdate [(a.name, a.api_key)] a.extra_headers) k =
        match lastVal a.extra_headers k with
        | some v => some v
        | none => if a.name = k then some a.api_key else none) ∧
    (a.location = "query" →
      a.get_auth_data = Except.ok ⟨a.extra_headers, [(a.name, PVal.str a.api_key)]⟩ ∧
      dictGet [(a.name, PVal.str a.api_key)] a.name = some (PVal.str a.api_key)) := by
  refine ⟨?_, ?_, ?_⟩
  · intro h1 h2
    simp [APIKeyAuth.get_auth_data, h1, h2]
  · intro h
    refine ⟨by simp [APIKeyAuth.get_auth_data, h], ?_⟩
    intro k
    rw [dictGet_dictUpdate]
    cases lastVal a.extra_headers k with
    | some v => rfl
    | none => simp [dictGet]
  · intro h
    refine ⟨by simp [APIKeyAuth.get_auth_data, h], by simp [dictGet]⟩

/-- Witness for C8: a concrete unrecognized location fails with the
configuration error. -/
theorem c8_witness :
    APIKeyAuth.get_auth_data ⟨"secret", "cookie", "x-api-key", []⟩ =
      Except.error (Err.valueError "Invalid API key location") :=
  (c8_api_key_placement ⟨"secret", "cookie", "x-api-key", []⟩).1 (by decide) (by decide)

/- ===============================
   C3, C4: token fetch caching and token parsing
   =============================== -/

/-- C4: when the token endpoint response has a success status (so
`raise_for_status` does not raise) but no `access_token` field, `_authenticate`
fails with the error raised at the required lookup (the failure the spec's
taxonomy calls AuthenticationError) and leaves the state unchanged; on success
it stores the token and sets the expiry to `now + expires_in`, with
`expires_in` defaulting to 3600 seconds when absent. -/
theorem c4_authenticate_parse (srv : Nat → TokenResp) (i now : Nat)
    (s : ClientCredentialsAuth) (h : failStatus (srv i).status = false) :
    ((srv i).access_token = none →
      s.authenticate srv i now = (s, some (Err.keyError "access_token"))) ∧
    (∀ tok e, (srv i).access_token = some tok → (srv i).expires_in = some e →
      s.authenticate srv i now =
        ({ s with access_token := some tok, expiry_time := now + e }, none)) ∧
    (∀ tok, (srv i).access_token = some tok → (srv i).expires_in = none →
      s.authenticate srv i now =
        ({ s with access_token := some tok, expiry_time := now + 3600 }, none)) := by
  refine ⟨?_, ?_, ?_⟩
  · intro hn
    simp [ClientCredentialsAuth.authenticate, h, hn]
  · intro tok e ht he
    simp [ClientCredentialsAuth.authenticate, h, ht, he]
  · intro tok ht he
    simp [ClientCredentialsAuth.authenticate, h, ht, he]

/-- Witness for C4 at concrete inputs: missing token field fails, a present
`expires_in` sets the expiry, an absent one defaults to 3600. -/
theorem c4_witness :
    ClientCredentialsAuth.authenticate ⟨"u", "c", "x", none, 0⟩
        (fun _ => ⟨200, none, none⟩) 0 5 =
      (⟨"u", "c", "x", none, 0⟩, some (Err.keyError "access_token")) ∧
    ClientCredentialsAuth.authenticate ⟨"u", "c", "x", none, 0⟩
        (fun _ => ⟨200, some "T", some 7⟩) 0 5 =
      (⟨"u", "c", "x", some "T", 5 + 7⟩, none) ∧
    ClientCredentialsAuth.authenticate ⟨"u", "c", "x", none, 0⟩
        (fun _ => ⟨200, some "T", none⟩) 0 5 =
      (⟨"u", "c", "x", some "T", 5 + 3600⟩, none) :=
  ⟨(c4_authenticate_parse (fun _ => ⟨200, none, none⟩) 0 5 _ (by decide)).1 rfl,
   (c4_authenticate_parse (fun _ => ⟨200, some "T", some 7⟩) 0 5 _ (by decide)).2.1 "T" 7 rfl rfl,
   (c4_authenticate_parse (fun _ => ⟨200, some "T", none⟩) 0 5 _ (by decide)).2.2 "T" rfl rfl⟩

/-- C3: for `ClientCredentialsAuth`, `get_auth_data` fetches a token exactly
when no token is cached or the clock has reached the expiry: starting from an
empty cache, the first call performs exactly one fetch, a second call before
the expiry performs none, a call at or after the expiry performs exactly one
more, and every call returns the Bearer Authorization header with empty query
params. -/
theorem c3_token_fetch_caching (srv : Nat → TokenResp) (t1 t2 t3 : Nat)
    (tok1 tok2 : String) (e1 e2 : Nat) (s0 : ClientCredentialsAuth)
    (hs0 : s0.access_token = none)
    (h0 : srv 0 = ⟨200, some tok1, some e1⟩) (h1 : tok1 ≠ "")
    (h2 : srv 1 = ⟨200, some tok2, some e2⟩)
    (ht2 : t2 < t1 + e1) (ht3 : t1 + e1 ≤ t3) :
    s0.get_auth_data srv 0 t1 =
      ({ s0 with access_token := some tok1, expiry_time := t1 + e1 }, 1,
        Except.ok (bearerAuthData (some tok1))) ∧
    ClientCredentialsAuth.get_auth_data
        { s0 with access_token := some tok1, expiry_time := t1 + e1 } srv 1 t2 =
      ({ s0 with access_token := some tok1, expiry_time := t1 + e1 }, 1,
        Except.ok (bearerAuthData (some tok1))) ∧
    ClientCredentialsAuth.get_auth_data
        { s0 with access_token := some tok1, expiry_time := t1 + e1 } srv 1 t3 =
      ({ s0 with access_token := some tok2, expiry_time := t3 + e2 }, 2,
        Except.ok (bearerAuthData (some tok2))) := by
  have hb : (tok1 == "") = false := by simpa using h1
  refine ⟨?_, ?_, ?_⟩
  · simp [ClientCredentialsAuth.get_auth_data, ClientCredentialsAuth.authenticate,
      tokenTruthy, hs0, h0, failStatus]
  · have hle : ¬ (t1 + e1 ≤ t2) := by omega
    simp [ClientCredentialsAuth.get_auth_data, tokenTruthy, hb, hle]
  · simp [ClientCredentialsAuth.get_auth_data, ClientCredentialsAuth.authenticate,
      tokenTruthy, hb, ht3, h2, failStatus]

/-- Witness for C3 at concrete inputs: fetch counts 1, 1 and 2 after the
three calls, with the simulated clock crossing the expiry before the third. -/
theorem c3_witness :
    ClientCredentialsAuth.get_auth_data ⟨"u", "c", "x", none, 0⟩
        (fun i => if i = 0 then ⟨200, some "A", some 100⟩ else ⟨200, some "B", some 50⟩) 0 10 =
      (⟨"u", "c", "x", some "A", 110⟩, 1, Except.ok (bearerAuthData (some "A"))) ∧
    ClientCredentialsAuth.get_auth_data ⟨"u", "c", "x", some "A", 110⟩
        (fun i => if i = 0 then ⟨200, some "A", some 100⟩ else ⟨200, some "B", some 50⟩) 1 50 =
      (⟨"u", "c", "x", some "A", 110⟩, 1, Except.ok (bearerAuthData (some "A"))) ∧
    ClientCredentialsAuth.get_auth_data ⟨"u", "c", "x", some "A", 110⟩
        (fun i => if i = 0 then ⟨200, some "A", some 100⟩ else ⟨200, some "B", some 50⟩) 1 110 =
      (⟨"u", "c", "x", some "B", 160⟩, 2, Except.ok (bearerAuthData (some "B"))) :=
  c3_token_fetch_caching
    (fun i => if i = 0 then ⟨200, some "A", some 100⟩ else ⟨200, some "B", some 50⟩)
    10 50 110 "A" "B" 100 50 ⟨"u", "c", "x", none, 0⟩
    rfl rfl (by decide) rfl (by decide) (by decide)

/- ===============================
   C2: single 401 retry policy
   =============================== -/

/-- C2: with a valid cached bearer token, if the first response is a 401 and
the auth strategy is `ClientCredentialsAuth` (and the token endpoint serves a
fresh token), `_make_request` forces a refresh (exactly one extra token
fetch), recomputes the headers from the fresh auth data, reissues the
identical request (same URL, method, params and body) exactly once, and the
second response is final whatever its status; if the first response is not a
401 no retry happens; and for `APIKeyAuth` exactly one request is ever
issued, whatever its status. -/
theorem c2_single_401_retry {β : Type} (srv : Nat → TokenResp)
    (transport : Nat → ReqData β → HttpResp) (now : Nat)
    (base_url endpoint method : String) (params : Option PyDict) (kwargs : β)
    (s : ClientCredentialsAuth) (i : Nat) (t0 tok : String) (e : Nat)
    (hcache : s.access_token = some t0) (ht0 : t0 ≠ "") (hexp : now < s.expiry_time)
    (hsrv : srv i = ⟨200, some tok, some e⟩) (htok : tok ≠ "") (he : 0 < e) :
    ((transport 0 ⟨method, build_url base_url endpoint,
        [("Authorization", "Bearer " ++ t0)], params.getD [], kwargs⟩).status = 401 →
      make_request_cc s srv transport now base_url endpoint method params kwargs i =
        ({ s with access_token := some tok, expiry_time := now + e }, i + 1,
          [⟨method, build_url base_url endpoint,
             [("Authorization", "Bearer " ++ t0)], params.getD [], kwargs⟩,
           ⟨method, build_url base_url endpoint,
             [("Authorization", "Bearer " ++ tok)], params.getD [], kwargs⟩],
          raise_for_status (transport 1 ⟨method, build_url base_url endpoint,
             [("Authorization", "Bearer " ++ tok)], params.getD [], kwargs⟩))) ∧
    ((transport 0 ⟨method, build_url base_url endpoint,
        [("Authorization", "Bearer " ++ t0)], params.getD [], kwargs⟩).status ≠ 401 →
      make_request_cc s srv transport now base_url endpoint method params kwargs i =
        (s, i, [⟨method, build_url base_url endpoint,
            [("Authorization", "Bearer " ++ t0)], params.getD [], kwargs⟩],
          raise_for_status (transport 0 ⟨method, build_url base_url endpoint,
            [("Authorization", "Bearer " ++ t0)], params.getD [], kwargs⟩))) ∧
    (∀ (a : APIKeyAuth) (ad : AuthData), a.get_auth_data = Except.ok ad →
      make_request_api_key a transport base_url endpoint method params kwargs =
        ([⟨method, build_url base_url endpoint, ad.headers,
            dictUpdate (params.getD []) ad.params, kwargs⟩],
          raise_for_status (transport 0 ⟨method, build_url base_url endpoint, ad.headers,
            dictUpdate (params.getD []) ad.params, kwargs⟩))) := by
  have hb : (t0 == "") = false := by simpa using ht0
  have hbtok : (tok == "") = false := by simpa using htok
  have hle : ¬ (s.expiry_time ≤ now) := by omega
  have hgad : s.get_auth_data srv i now = (s, i, Except.ok (bearerAuthData (some t0))) := by
    simp [ClientCredentialsAuth.get_auth_data, tokenTruthy, hcache, hb, hle]
  have hfr : s.force_refresh srv i now =
      ({ s with access_token := some tok, expiry_time := now + e }, none) := by
    simp [ClientCredentialsAuth.force_refresh, ClientCredentialsAuth.authenticate, hsrv,
      failStatus]
  have hle2 : ¬ (now + e ≤ now) := by omega
  have hgad2 : ClientCredentialsAuth.get_auth_data
      { s with access_token := some tok, expiry_time := now + e } srv (i + 1) now =
      ({ s with access_token := some tok, expiry_time := now + e }, i + 1,
        Except.ok (bearerAuthData (some tok))) := by
    simp [ClientCredentialsAuth.get_auth_data, tokenTruthy, hbtok, hle2]
  refine ⟨?_, ?_, ?_⟩
  · intro h401
    simp only [make_request_cc, hgad, bearerAuthData, pyStrOpt, dictUpdate, List.foldl_nil]
    rw [if_pos h401]
    simp only [hfr, hgad2, bearerAuthData, pyStrOpt]
  · intro hnot
    simp only [make_request_cc, hgad, bearerAuthData, pyStrOpt, dictUpdate, List.foldl_nil]
    rw [if_neg hnot]
  · intro a ad had
    simp only [make_request_api_key, had]

/-- Witness for C2: a transport that answers 401 to everything makes the
client-credentials executor issue exactly two requests (the second with the
refreshed token) and surface the second 401, while the API-key executor
issues exactly one request and surfaces its 401. -/
theorem c2_witness :
    make_request_cc ⟨"u", "c", "x", some "T1", 99⟩ (fun _ => ⟨200, some "T2", some 100⟩)
        (fun _ _ => ⟨401⟩) 10 "https://x.com" "orders" "GET" none () 0 =
      (⟨"u", "c", "x", some "T2", 110⟩, 1,
        [⟨"GET", "https://x.com/orders", [("Authorization", "Bearer T1")], [], ()⟩,
         ⟨"GET", "https://x.com/orders", [("Authorization", "Bearer T2")], [], ()⟩],
        Except.error (Err.httpError 401)) ∧
    make_request_api_key ⟨"k", "header", "x-api-key", []⟩ (fun _ _ => ⟨401⟩)
        "https://x.com" "orders" "GET" none () =
      ([⟨"GET", "https://x.com/orders", [("x-api-key", "k")], [], ()⟩],
        Except.error (Err.httpError 401)) := by
  have h := c2_single_401_retry (β := Unit) (fun _ => ⟨200, some "T2", some 100⟩)
    (fun _ _ => ⟨401⟩) 10 "https://x.com" "orders" "GET" none ()
    ⟨"u", "c", "x", some "T1", 99⟩ 0 "T1" "T2" 100
    rfl (by decide) (by decide) rfl (by decide) (by decide)
  exact ⟨h.1 rfl, h.2.2 ⟨"k", "header", "x-api-key", []⟩ ⟨[("x-api-key", "k")], []⟩ rfl⟩

/- ===============================
   C1: unknown strategy tag
   =============================== -/

/-- C1 counterexample: with the unrecognized strategy tag `"cursor"`,
`get_all` issues no request at all and returns the empty result list as a
normal value; it does not fail with the configuration error the claim
requires (no error of any kind is raised). -/
theorem c1_counterexample :
    get_all (fun _ _ => Except.error (Err.httpError 500)) none "cursor"
        "limit" "offset" "page" "per_page" "has_more" 5 =
      some ([], Except.ok ([] : List Nat)) ∧
    ∀ e : Err, (Except.ok ([] : List Nat) : Except Err (List Nat)) ≠ Except.error e :=
  ⟨rfl, fun _ h => nomatch h⟩

/-- C1 (amended): for every strategy tag other than OFFSET, PAGE and
HAS_MORE, `get_all` silently returns the empty list, issuing no request and
raising nothing (the `elif` chain has no `else` and falls through to
`return results`). -/
theorem c1_unknown_strategy_empty {α : Type}
    (fetch : Nat → PyDict → Except Err (PageResp α)) (params0 : Option PyDict)
    (strategy limit_field offset_field page_field per_page_field has_more_field : String)
    (fuel : Nat)
    (h1 : strategy ≠ PaginationStrategy.OFFSET)
    (h2 : strategy ≠ PaginationStrategy.PAGE)
    (h3 : strategy ≠ PaginationStrategy.HAS_MORE) :
    get_all fetch params0 strategy limit_field offset_field page_field per_page_field
      has_more_field fuel = some ([], Except.ok []) := by
  simp [get_all, h1, h2, h3]

/-- Witness for C1: the concrete tag `"cursor"` with a fetch that would fail
if called: no request is made and the empty list is returned. -/
theorem c1_witness :
    get_all (fun _ _ => Except.ok (⟨[], none, none, none⟩ : PageResp Nat)) none "cursor"
        "limit" "offset" "page" "per_page" "has_more" 7 = some ([], Except.ok []) :=
  c1_unknown_strategy_empty _ none "cursor" "limit" "offset" "page" "per_page" "has_more" 7
    (by decide) (by decide) (by decide)

/- ===============================
   C5: OFFSET acceptance scenario
   =============================== -/

/-- C5: against the mock endpoint serving pages of 10, 10 and 5 items with
`limit=10`, `get_all` with the OFFSET strategy issues exactly three requests
at offsets 0, 10 and 20 (never an offset beyond the ceiling of 25) and
returns exactly the 25 items, the concatenation of the pages in fetch
order. -/
theorem c5_offset_25_items :
    get_all mockOffsetPages (some [("limit", PVal.nat 10)]) PaginationStrategy.OFFSET
        "limit" "offset" "page" "per_page" "has_more" 26 =
      some ([[("limit", PVal.nat 10), ("offset", PVal.nat 0)],
             [("limit", PVal.nat 10), ("offset", PVal.nat 10)],
             [("limit", PVal.nat 10), ("offset", PVal.nat 20)]],
            Except.ok (List.range 25)) ∧
    (List.range 25).length = 25 :=
  ⟨rfl, rfl⟩

/- ===============================
   C9: error propagation in the pagination engine
   =============================== -/

/-- C9: none of the three pagination loops catches an error of the underlying
`get`: from any reachable loop state, if the fetch the loop performs next
fails, the whole `get_all` call fails with exactly that error, and the items
already accumulated (`acc`) do not appear in the result. -/
theorem c9_errors_propagate {α : Type} (fetch : Nat → PyDict → Except Err (PageResp α))
    (e : Err) (offset_field page_field : String) (limit fuel i offset page iteration : Nat)
    (tc : Option Nat) (params : PyDict) (acc : List α) (trace : List PyDict) :
    (fetch i (dictSet params offset_field (PVal.nat offset)) = Except.error e →
      offsetLoopAux fetch offset_field limit (fuel + 1) i params offset tc acc trace =
        some (trace ++ [dictSet params offset_field (PVal.nat offset)], Except.error e)) ∧
    (fetch i (dictSet params page_field (PVal.nat page)) = Except.error e →
      pageLoopAux fetch page_field (fuel + 1) i params page acc trace =
        some (trace ++ [dictSet params page_field (PVal.nat page)], Except.error e)) ∧
    (fetch i params = Except.error e →
      hasMoreLoopAux fetch (fuel + 1) i params true iteration acc trace =
        some (trace ++ [params], Except.error e)) := by
  refine ⟨?_, ?_, ?_⟩
  · intro h
    simp [offsetLoopAux, h]
  · intro h
    simp [pageLoopAux, h]
  · intro h
    simp [hasMoreLoopAux, h]

/-- Witness for C9: a fetch failing with a 500 aborts the OFFSET loop with
exactly that error even though items were already accumulated. -/
theorem c9_witness :
    offsetLoopAux (fun _ _ => Except.error (Err.httpError 500)) "offset" 10 5 0 [] 0 none
        [99] [] = some ([[("offset", PVal.nat 0)]], Except.error (Err.httpError 500)) :=
  (c9_errors_propagate (fun _ _ => Except.error (Err.httpError 500)) (Err.httpError 500)
    "offset" "page" 10 4 0 0 1 0 none [] [99] []).1 rfl

/- ===============================
   C6: OFFSET loop characterization
   =============================== -/

lemma dictSet_dictSet {σ : Type} (d : List (String × σ)) (k : String) (w v : σ) :
    dictSet (dictSet d k w) k v = dictSet d k v := by
  induction d with
  | nil => simp [dictSet]
  | cons p rest ih =>
    by_cases hp : p.1 = k
    · simp [dictSet, hp]
    · simp [dictSet, hp, ih]

lemma firstStopFrom_gt (stop : Nat → Bool) :
    ∀ fuel k n, firstStopFrom stop fuel k = some n → k < n := by
  intro fuel
  induction fuel with
  | zero =>
    intro k n h
    simp [firstStopFrom] at h
  | succ fuel ih =>
    intro k n h
    simp only [firstStopFrom] at h
    by_cases hs : stop (k + 1)
    · rw [if_pos hs] at h
      cases h
      omega
    · rw [if_neg hs] at h
      have := ih _ _ h
      omega

lemma firstStopFrom_stop_true (stop : Nat → Bool) :
    ∀ fuel k n, firstStopFrom stop fuel k = some n → stop n = true := by
  intro fuel
  induction fuel with
  | zero =>
    intro k n h
    simp [firstStopFrom] at h
  | succ fuel ih =>
    intro k n h
    simp only [firstStopFrom] at h
    by_cases hs : stop (k + 1)
    · rw [if_pos hs] at h
      cases h
      exact hs
    · rw [if_neg hs] at h
      exact ih _ _ h

lemma firstStopFrom_min (stop : Nat → Bool) :
    ∀ fuel k n, firstStopFrom stop fuel k = some n →
      ∀ m, k < m → m < n → stop m = false := by
  intro fuel
  induction fuel with
  | zero =>
    intro k n h
    simp [firstStopFrom] at h
  | succ fuel ih =>
    intro k n h m h1 h2
    simp only [firstStopFrom] at h
    by_cases hs : stop (k + 1)
    · rw [if_pos hs] at h
      cases h
      omega
    · rw [if_neg hs] at h
      by_cases hm : m = k + 1
      · subst hm
        exact Bool.not_eq_true _ ▸ (by simpa using hs)
      · exact ih _ _ h m (by omega) h2

lemma firstStopFrom_isSome (stop : Nat → Bool) :
    ∀ fuel k j, k < j → j ≤ k + fuel → stop j = true →
      ∃ n, firstStopFrom stop fuel k = some n := by
  intro fuel
  induction fuel with
  | zero =>
    intro k j h1 h2 _
    omega
  | succ fuel ih =>
    intro k j h1 h2 h3
    simp only [firstStopFrom]
    by_cases hs : stop (k + 1)
    · exact ⟨k + 1, by rw [if_pos hs]⟩
    · rw [if_neg hs]
      have hne : j ≠ k + 1 := by
        intro he
        exact hs (he ▸ h3)
      exact ih (k + 1) j (by omega) (by omega) h3

lemma offsetLoopAux_spec {α : Type} (fetch : Nat → PyDict → Except Err (PageResp α))
    (pages : Nat → PageResp α) (base : PyDict) (offset_field : String) (limit : Nat)
    (hfetch : ∀ i d, fetch i d = Except.ok (pages i)) :
    ∀ fuel k params off tc acc trace,
      (∀ v, dictSet params offset_field v = dictSet base offset_field v) →
      off = k * limit →
      tc = tcFirst pages k →
      offsetLoopAux fetch offset_field limit fuel k params off tc acc trace =
        match firstStopFrom (stopAt pages limit) fuel k with
        | some n => some (trace ++ dictsSeg base offset_field limit k n,
            Except.ok (acc ++ pagesSeg pages k n))
        | none => none := by
  intro fuel
  induction fuel with
  | zero =>
    intro k params off tc acc trace hp hoff htc
    simp [offsetLoopAux, firstStopFrom]
  | succ fuel ih =>
    intro k params off tc acc trace hp hoff htc
    subst hoff
    subst htc
    have htc1 : (match tcFirst pages k with
        | some t => some t
        | none => (pages k).total_count) = tcFirst pages (k + 1) := by
      cases h : tcFirst pages k <;> simp [tcFirst, h]
    have hoff1 : k * limit + limit = (k + 1) * limit := by ring
    have hstop : (decide (25 ≤ (k + 1) * limit) ||
        (match tcFirst pages (k + 1) with
         | some t => decide (t ≤ (k + 1) * limit)
         | none => false) ||
        (pages k).orders.isEmpty) = stopAt pages limit (k + 1) := by
      simp [stopAt]
    simp only [offsetLoopAux, hfetch, hp, htc1, hoff1, hstop]
    by_cases hs : stopAt pages limit (k + 1) = true
    · rw [if_pos hs]
      simp only [firstStopFrom]
      rw [if_pos hs]
      dsimp only
      have hseg : dictsSeg base offset_field limit k (k + 1) =
          [dictSet base offset_field (PVal.nat (k * limit))] := by
        simp [dictsSeg, Nat.add_sub_cancel_left, List.range'_one]
      have hps : pagesSeg pages k (k + 1) = (pages k).orders := by
        simp [pagesSeg, Nat.add_sub_cancel_left, List.range'_one]
      rw [hseg, hps]
    · rw [if_neg hs]
      simp only [firstStopFrom]
      rw [if_neg hs]
      rw [ih (k + 1) (dictSet base offset_field (PVal.nat (k * limit))) ((k + 1) * limit)
        (tcFirst pages (k + 1)) (acc ++ (pages k).orders)
        (trace ++ [dictSet base offset_field (PVal.nat (k * limit))])
        (fun v => dictSet_dictSet base offset_field (PVal.nat (k * limit)) v) rfl rfl]
      cases hfs : firstStopFrom (stopAt pages limit) fuel (k + 1) with
      | none => rfl
      | some n =>
        dsimp only
        have hgt : k + 1 < n := firstStopFrom_gt _ _ _ _ hfs
        have hnk : n - k = (n - (k + 1)) + 1 := by omega
        have hds : dictsSeg base offset_field limit k n =
            dictSet base offset_field (PVal.nat (k * limit)) ::
              dictsSeg base offset_field limit (k + 1) n := by
          simp [dictsSeg, hnk, List.range']
        have hpsn : pagesSeg pages k n = (pages k).orders ++ pagesSeg pages (k + 1) n := by
          simp [pagesSeg, hnk, List.range']
        rw [hds, hpsn]
        simp [List.append_assoc]

/-- C6 counterexample: with `limit=1` and a server whose FIRST response has no
`total_count` but whose SECOND response has `total_count = 2`, the code stops
after the second fetch (2 items: it captures the total from the second
response and its check is `offset >= 25`, not strictly greater), while the
loop described by the claim as written (total captured from the first
response only, ceiling check strict) would keep fetching nonempty pages and
return 26 items.  Also, at the point where the code stopped, none of the
claim's termination disjuncts holds: the offset 2 does not exceed 25, the
first response carries no total, and the last fetched page is nonempty. -/
theorem c6_counterexample :
    get_all (fun i _ => Except.ok (twoPageTotal i)) (some [("limit", PVal.nat 1)])
        PaginationStrategy.OFFSET "limit" "offset" "page" "per_page" "has_more" 30 =
      some ([[("limit", PVal.nat 1), ("offset", PVal.nat 0)],
             [("limit", PVal.nat 1), ("offset", PVal.nat 1)]],
            Except.ok [1, 2]) ∧
    (offsetClaimRun twoPageTotal 1 30).length = 26 ∧
    (¬ (25 < 2) ∧ (twoPageTotal 0).total_count = none ∧ (twoPageTotal 1).orders ≠ []) :=
  ⟨rfl, rfl, by decide, rfl, by decide⟩

/-- C6 (amended): for the OFFSET strategy with a positive limit (read from
the params, default 50) against a server that answers every request, the
offset of the `n`-th request is `(n-1) * limit` (it starts at 0 and advances
by the limit), the result is the concatenation of the fetched pages, and the
number of fetches `n` is exactly the first point at which the stop condition
holds, where the stop condition after `m` fetches is: the advanced offset
`m * limit` REACHES OR exceeds the ceiling 25, or a `total_count` has been
captured from the EARLIEST response that carries one and the offset reaches
it, or the `m`-th page is empty. -/
theorem c6_offset_termination {α : Type} (fetch : Nat → PyDict → Except Err (PageResp α))
    (pages : Nat → PageResp α) (params : PyDict)
    (limit_field offset_field page_field per_page_field has_more_field : String)
    (fuel limit : Nat)
    (hfetch : ∀ i d, fetch i d = Except.ok (pages i))
    (hlim : getNatD params limit_field 50 = limit) (hpos : 1 ≤ limit) (hfuel : 26 ≤ fuel) :
    ∃ n, 1 ≤ n ∧
      get_all fetch (some params) PaginationStrategy.OFFSET limit_field offset_field
          page_field per_page_field has_more_field fuel =
        some ((List.range n).map fun j => dictSet params offset_field (PVal.nat (j * limit)),
          Except.ok (((List.range n).map fun j => (pages j).orders).flatten)) ∧
      stopAt pages limit n = true ∧
      ∀ m, 1 ≤ m → m < n → stopAt pages limit m = false := by
  have h25 : 25 ≤ 25 * limit := by
    calc 25 = 25 * 1 := by ring
    _ ≤ 25 * limit := Nat.mul_le_mul_left 25 hpos
  have hstop25 : stopAt pages limit 25 = true := by
    simp [stopAt, h25]
  obtain ⟨n, hn⟩ := firstStopFrom_isSome (stopAt pages limit) fuel 0 25 (by omega)
    (by omega) hstop25
  refine ⟨n, ?_, ?_, ?_, ?_⟩
  · have := firstStopFrom_gt _ _ _ _ hn
    omega
  · simp only [get_all, if_pos rfl, Option.getD_some, hlim]
    rw [offsetLoopAux_spec fetch pages params offset_field limit hfetch fuel 0 params 0
      none [] [] (fun v => rfl) (by ring) rfl]
    rw [hn]
    dsimp only
    simp [dictsSeg, pagesSeg, List.range_eq_range']
  · exact firstStopFrom_stop_true _ _ _ _ hn
  · intro m h1 h2
    exact firstStopFrom_min _ _ _ _ hn m (by omega) h2

/-- Witness for C6: one page of one item then an empty page, limit 10: the
loop stops after the second fetch (the empty page), which is the first stop
point. -/
theorem c6_witness :
    ∃ n, 1 ≤ n ∧
      get_all (fun i _ => Except.ok (oneThenEmpty i)) (some [("limit", PVal.nat 10)])
          PaginationStrategy.OFFSET "limit" "offset" "page" "per_page" "has_more" 26 =
        some ((List.range n).map fun j =>
            dictSet [("limit", PVal.nat 10)] "offset" (PVal.nat (j * 10)),
          Except.ok (((List.range n).map fun j => (oneThenEmpty j).orders).flatten)) ∧
      stopAt oneThenEmpty 10 n = true ∧
      ∀ m, 1 ≤ m → m < n → stopAt oneThenEmpty 10 m = false :=
  c6_offset_termination (fun i _ => Except.ok (oneThenEmpty i)) oneThenEmpty
    [("limit", PVal.nat 10)] "limit" "offset" "page" "per_page" "has_more" 26 10
    (fun _ _ => rfl) rfl (by decide) (by decide)

/- ===============================
   C10: the caller's params dict is never mutated
   =============================== -/

lemma listSet_getElem_ne {γ : Type} :
    ∀ (h : List γ) (r j : Nat) (d : γ), j ≠ r → (h.set r d)[j]? = h[j]? := by
  intro h
  induction h with
  | nil =>
    intro r j d _
    simp
  | cons x t ih =>
    intro r j d hj
    cases r with
    | zero =>
      cases j with
      | zero => exact absurd rfl hj
      | succ m => simp
    | succ r =>
      cases j with
      | zero => simp
      | succ m => simpa using ih r m d (by omega)

lemma listAppend_getElem_lt {γ : Type} :
    ∀ (h : List γ) (x : γ) (j : Nat), j < h.length → (h ++ [x])[j]? = h[j]? := by
  intro h
  induction h with
  | nil =>
    intro x j hj
    simp at hj
  | cons y t ih =>
    intro x j hj
    cases j with
    | zero => simp
    | succ m =>
      simpa using ih x m (by simpa using hj)

lemma offsetHeapLoop_frame {α : Type} (fetch : Nat → PyDict → Except Err (PageResp α))
    (offset_field : String) (limit : Nat) :
    ∀ fuel i h r offset tc acc j, j ≠ r →
      ((offsetHeapLoop fetch offset_field limit fuel i h r offset tc acc).1)[j]? = h[j]? := by
  intro fuel
  induction fuel with
  | zero =>
    intro i h r offset tc acc j _
    rfl
  | succ fuel ih =>
    intro i h r offset tc acc j hj
    have hset : (heapSet h r (dictSet (heapGet h r) offset_field (PVal.nat offset)))[j]? =
        h[j]? := listSet_getElem_ne h r j _ hj
    simp only [offsetHeapLoop]
    cases hfe : fetch i
        (heapGet (heapSet h r (dictSet (heapGet h r) offset_field (PVal.nat offset))) r) with
    | error e => exact hset
    | ok resp =>
      dsimp only
      split
      · exact hset
      · exact (ih (i + 1) _ r (offset + limit) _ (acc ++ resp.orders) j hj).trans hset

lemma pageHeapLoop_frame {α : Type} (fetch : Nat → PyDict → Except Err (PageResp α))
    (page_field : String) :
    ∀ fuel i h r page acc j, j ≠ r →
      ((pageHeapLoop fetch page_field fuel i h r page acc).1)[j]? = h[j]? := by
  intro fuel
  induction fuel with
  | zero =>
    intro i h r page acc j _
    rfl
  | succ fuel ih =>
    intro i h r page acc j hj
    have hset : (heapSet h r (dictSet (heapGet h r) page_field (PVal.nat page)))[j]? =
        h[j]? := listSet_getElem_ne h r j _ hj
    simp only [pageHeapLoop]
    cases hfe : fetch i
        (heapGet (heapSet h r (dictSet (heapGet h r) page_field (PVal.nat page))) r) with
    | error e => exact hset
    | ok resp =>
      dsimp only
      split
      · exact hset
      · exact (ih (i + 1) _ r (page + 1) (acc ++ resp.orders) j hj).trans hset

lemma hasMoreHeapLoop_heap {α : Type} (fetch : Nat → PyDict → Except Err (PageResp α)) :
    ∀ fuel i h r has_more iteration acc,
      (hasMoreHeapLoop fetch fuel i h r has_more iteration acc).1 = h := by
  intro fuel
  induction fuel with
  | zero =>
    intro i h r hm iteration acc
    rfl
  | succ fuel ih =>
    intro i h r hm iteration acc
    simp only [hasMoreHeapLoop]
    by_cases hb : hm = false
    · rw [if_pos hb]
    · rw [if_neg hb]
      cases hfe : fetch i (heapGet h r) with
      | error e => rfl
      | ok resp =>
        dsimp only
        split
        · rfl
        · exact ih (i + 1) h r (resp.has_more.getD false) (iteration + 1) (acc ++ resp.orders)

/-- C10: for every strategy tag (the three real ones and any unknown one),
running `get_all` against a store leaves every pre-existing dict cell intact
— in particular the caller's params dict holds exactly the entries it held
before, because line 200 copies it into a fresh cell and all pagination
fields are injected into the copy. -/
theorem c10_caller_params_preserved {α : Type}
    (fetch : Nat → PyDict → Except Err (PageResp α)) (h0 : PyHeap)
    (paramsRef : Option Nat) (strategy : String)
    (limit_field offset_field page_field per_page_field has_more_field : String)
    (fuel : Nat) (j : Nat) (hj : j < h0.length) :
    ((get_all_heap fetch h0 paramsRef strategy limit_field offset_field page_field
        per_page_field has_more_field fuel).1)[j]? = h0[j]? := by
  have hr : j ≠ h0.length := by omega
  simp only [get_all_heap]
  by_cases h1 : strategy = PaginationStrategy.OFFSET
  · rw [if_pos h1]
    exact (offsetHeapLoop_frame fetch offset_field _ fuel 0 _ h0.length 0 none [] j hr).trans
      (listAppend_getElem_lt h0 _ j hj)
  · rw [if_neg h1]
    by_cases h2 : strategy = PaginationStrategy.PAGE
    · rw [if_pos h2]
      exact (pageHeapLoop_frame fetch page_field fuel 0 _ h0.length 1 [] j hr).trans
        (listAppend_getElem_lt h0 _ j hj)
    · rw [if_neg h2]
      by_cases h3 : strategy = PaginationStrategy.HAS_MORE
      · rw [if_pos h3]
        rw [hasMoreHeapLoop_heap fetch fuel 0 _ h0.length true 0 []]
        exact listAppend_getElem_lt h0 _ j hj
      · rw [if_neg h3]
        exact listAppend_getElem_lt h0 _ j hj

/-- Witness for C10: a store holding one caller dict, run through the OFFSET
strategy; the caller's cell is unchanged afterwards. -/
theorem c10_witness :
    ((get_all_heap (fun _ _ => Except.ok (⟨[], none, none, none⟩ : PageResp Nat))
        [[("a", PVal.nat 1)]] (some 0) PaginationStrategy.OFFSET
        "limit" "offset" "page" "per_page" "has_more" 26).1)[0]? =
      [[("a", PVal.nat 1)]][0]? :=
  c10_caller_params_preserved (fun _ _ => Except.ok (⟨[], none, none, none⟩ : PageResp Nat))
    [[("a", PVal.nat 1)]] (some 0) PaginationStrategy.OFFSET
    "limit" "offset" "page" "per_page" "has_more" 26 0 (by decide)
